import Mathlib

/-
Verification of the frame sampling and export pipeline of
src/src/components/VideoRecorder.tsx (the VideoFrameExtractor component).
The React component's state and handlers are shallowly embedded: component
state becomes an explicit ExtractorState record, each handler a pure state
transformer, and the browser's interval timer a list of explicit tick
events.  External collaborators (JSZip, file-saver, Date.toISOString) are
modelled at their interfaces.
-/

set_option maxHeartbeats 1000000

namespace RetinaWebview

/-- Eye-side tag: the union type of literal strings OD and OE used by
VideoRecorder.tsx for the eyeSide state and the Frame.eyeSide field. -/
inductive EyeSide where
  | OD
  | OE
deriving DecidableEq, Repr

/-- The string an EyeSide value interpolates to in template literals
(file names) and in the archive folder names. -/
def EyeSide.code : EyeSide → String
  | EyeSide.OD => "OD"
  | EyeSide.OE => "OE"

/-- The Frame interface of VideoRecorder.tsx.  takenAt is a JS Date,
modelled as milliseconds since the Unix epoch. -/
structure Frame where
  id : Nat
  uri : String
  fileName : String
  takenAt : Nat
  selected : Bool
  eyeSide : EyeSide
deriving DecidableEq, Repr

/-- The file name built at capture time (line 49 of VideoRecorder.tsx):
the template literal frame_(id)_(eyeSide).png . -/
def frameFileName (id : Nat) (side : EyeSide) : String :=
  "frame_" ++ toString id ++ "_" ++ side.code ++ ".png"

/-- toggleFrameSelection (lines 75-81), restricted to the frames array it
maps over: flip the selected flag of every frame whose id matches. -/
def toggleFrames (frames : List Frame) (id : Nat) : List Frame :=
  frames.map (fun frame =>
    if frame.id = id then { frame with selected := !frame.selected } else frame)

theorem toggleFrames_point (f : Frame) (id : Nat) :
    (if f.id = id then { f with selected := !f.selected } else f).id = f.id := by
  by_cases h : f.id = id <;> simp [h]

theorem toggleFrames_twice (frames : List Frame) (id : Nat) :
    toggleFrames (toggleFrames frames id) id = frames := by
  induction frames with
  | nil => rfl
  | cons f rest ih =>
      simp only [toggleFrames, List.map_cons] at *
      refine congrArg₂ List.cons ?_ ih
      by_cases h : f.id = id
      · subst h
        simp
      · simp [h]

theorem toggleFrames_not_mem (frames : List Frame) (id : Nat)
    (h : id ∉ frames.map Frame.id) :
    toggleFrames frames id = frames := by
  induction frames with
  | nil => rfl
  | cons f rest ih =>
      simp only [List.map_cons, List.mem_cons] at h
      push_neg at h
      simp only [toggleFrames, List.map_cons] at *
      have hf : f.id ≠ id := fun e => h.1 e.symm
      rw [if_neg hf]
      exact congrArg (List.cons f) (ih h.2)

/-- C7: for every frame store and every id, toggleFrameSelection(id) applied
twice returns the store to its original state, and toggleFrameSelection(id)
for an id not present in the store leaves the store unchanged. -/
theorem C7_toggle_involutive_and_noop (frames : List Frame) (id : Nat) :
    toggleFrames (toggleFrames frames id) id = frames ∧
    (id ∉ frames.map Frame.id → toggleFrames frames id = frames) :=
  ⟨toggleFrames_twice frames id, toggleFrames_not_mem frames id⟩

/-- What the environment presents at one firing of the capture interval:
the video element's paused and ended flags, the wall clock (new Date()),
and the string canvas.toDataURL produces for the current video image. -/
structure TickEnv where
  paused : Bool
  ended : Bool
  now : Nat
  image : String
deriving DecidableEq, Repr

/-- One recurring interval as window.setInterval left it: its numeric id
and the value the callback closed over for the eyeSide binding of the
render in which extractFrames was created (the callback reads that
closure, not the component's current state). -/
structure Timer where
  tid : Nat
  sideAtStart : EyeSide
deriving DecidableEq, Repr

/-- The VideoFrameExtractor component's state: the useState values
(frames, isExtracting, videoFile, eyeSide), the useRef cells
(globalFrameId, frameIntervalRef), and the browser-side bookkeeping the
embedding needs: the set of intervals still scheduled in the window
(activeTimers), the id window.setInterval hands out next (browsers start
at a positive number; we start at 1), and whether the video element, the
canvas element and its 2d context are available (the three early-return
guards of extractFrames). -/
structure ExtractorState where
  frames : List Frame
  isExtracting : Bool
  videoFile : Option String
  eyeSide : EyeSide
  globalFrameId : Nat
  frameInterval : Option Nat
  nextTimerId : Nat
  activeTimers : List Timer
  videoPresent : Bool
  canvasPresent : Bool
  contextPresent : Bool
deriving DecidableEq, Repr

/-- extractFrames (lines 27-65): after the ref and context guards, set
isExtracting, schedule the recurring interval — whose callback closes over
the current eyeSide — store its id in frameIntervalRef (overwriting, not
clearing, any previous id), and play the video.  The video element's own
muted/playing flags live outside the component state and are read through
TickEnv at tick time. -/
def extractFrames (s : ExtractorState) : ExtractorState :=
  if s.videoPresent = false ∨ s.canvasPresent = false then s
  else if s.contextPresent = false then s
  else
    { s with
      isExtracting := true
      frameInterval := some s.nextTimerId
      activeTimers := s.activeTimers ++ [{ tid := s.nextTimerId, sideAtStart := s.eyeSide }]
      nextTimerId := s.nextTimerId + 1 }

/-- stopExtracting (lines 67-73): if frameIntervalRef holds an id, clear
that interval and null the ref; in any case leave the extracting state. -/
def stopExtracting (s : ExtractorState) : ExtractorState :=
  match s.frameInterval with
  | some tid =>
      { s with
        activeTimers := s.activeTimers.filter (fun t => t.tid != tid)
        frameInterval := none
        isExtracting := false }
  | none => { s with isExtracting := false }

/-- The body of the interval callback (lines 38-62), with side the eyeSide
value the callback closed over when extractFrames created it: stop when
the video is paused or ended, otherwise rasterize, build the new Frame
from the globalFrameId ref, the closed-over side and the current time,
append it and bump the ref. -/
def tickBody (side : EyeSide) (env : TickEnv) (s : ExtractorState) : ExtractorState :=
  if env.paused || env.ended then stopExtracting s
  else
    { s with
      frames := s.frames ++
        [{ id := s.globalFrameId
           uri := env.image
           fileName := frameFileName s.globalFrameId side
           takenAt := env.now
           selected := false
           eyeSide := side }]
      globalFrameId := s.globalFrameId + 1 }

/-- handleVideoUpload (lines 139-150): if a file was chosen, store it and
clear the frames array; the globalFrameId ref is left untouched. -/
def handleVideoUpload (s : ExtractorState) (file : Option String) : ExtractorState :=
  match file with
  | some f => { s with videoFile := some f, frames := [] }
  | none => s

/-- toggleFrameSelection (lines 75-81) at the component level. -/
def toggleFrameSelection (s : ExtractorState) (id : Nat) : ExtractorState :=
  { s with frames := toggleFrames s.frames id }

/-- The entry points through which the embedded component is driven: a
firing of a scheduled interval (the browser fires only intervals still
scheduled), the four buttons of the rendered UI — which exist only once a
video file is chosen, and of which start is disabled while isExtracting
and stop while not — and the file input. -/
inductive Event where
  | tick (tid : Nat) (env : TickEnv)
  | clickStart
  | clickStop
  | toggleEyeSide
  | uploadVideo (file : Option String)
  | toggleSel (id : Nat)
deriving DecidableEq, Repr

/-- One step of the embedded component.  A tick of an interval that is no
longer scheduled does nothing (the browser never fires it); an active
interval runs the callback with the eyeSide it closed over.  The button
events apply the render guards of lines 172-212: the buttons exist only
when a video file is set, the start button is disabled while extracting
and the stop button while not extracting. -/
def step (s : ExtractorState) : Event → ExtractorState
  | Event.tick tid env =>
      match s.activeTimers.find? (fun t => t.tid == tid) with
      | some t => tickBody t.sideAtStart env s
      | none => s
  | Event.clickStart =>
      if s.videoFile = none then s
      else if s.isExtracting = true then s
      else extractFrames s
  | Event.clickStop =>
      if s.videoFile = none then s
      else if s.isExtracting = false then s
      else stopExtracting s
  | Event.toggleEyeSide =>
      if s.videoFile = none then s
      else { s with eyeSide := if s.eyeSide = EyeSide.OD then EyeSide.OE else EyeSide.OD }
  | Event.uploadVideo file => handleVideoUpload s file
  | Event.toggleSel id => toggleFrameSelection s id

/-- Run a list of events from a state. -/
def run : ExtractorState → List Event → ExtractorState
  | s, [] => s
  | s, e :: es => run (step s e) es

/-- The component's state right after mount: empty store, not extracting,
no video, eyeSide OD, globalFrameId ref at 0, no interval scheduled, refs
attached. -/
def initState : ExtractorState :=
  { frames := []
    isExtracting := false
    videoFile := none
    eyeSide := EyeSide.OD
    globalFrameId := 0
    frameInterval := none
    nextTimerId := 1
    activeTimers := []
    videoPresent := true
    canvasPresent := true
    contextPresent := true }

theorem run_append (s : ExtractorState) (es es2 : List Event) :
    run s (es ++ es2) = run (run s es) es2 := by
  induction es generalizing s with
  | nil => rfl
  | cons e rest ih =>
      rw [List.cons_append]
      exact ih (step s e)

/-- Two-digit zero padding, for the model of Date.prototype.toISOString. -/
def pad2 (n : Nat) : String :=
  if n < 10 then "0" ++ toString n else toString n

/-- Three-digit zero padding, for the milliseconds of the ISO string. -/
def pad3 (n : Nat) : String :=
  if n < 10 then "00" ++ toString n
  else if n < 100 then "0" ++ toString n
  else toString n

/-- Civil date from days since 1970-01-01 (proleptic Gregorian, valid for
non-negative day counts): (year, month, day). -/
def civilFromDays (days : Nat) : Nat × Nat × Nat :=
  let z := days + 719468
  let era := z / 146097
  let doe := z % 146097
  let yoe := (doe - doe / 1460 + doe / 36524 - doe / 146096) / 365
  let y := yoe + era * 400
  let doy := doe - (365 * yoe + yoe / 4 - yoe / 100)
  let mp := (5 * doy + 2) / 153
  let d := doy - (153 * mp + 2) / 5 + 1
  let m := if mp < 10 then mp + 3 else mp - 9
  (if m ≤ 2 then y + 1 else y, m, d)

/-- Model of the external Date.prototype.toISOString on a timestamp in
milliseconds since the Unix epoch: the UTC instant rendered as
YYYY-MM-DDTHH:mm:ss.sssZ. -/
def toISOString (ms : Nat) : String :=
  let days := ms / 86400000
  let rem := ms % 86400000
  let ymd := civilFromDays days
  toString ymd.1 ++ "-" ++ pad2 ymd.2.1 ++ "-" ++ pad2 ymd.2.2 ++
    "T" ++ pad2 (rem / 3600000) ++ ":" ++ pad2 (rem % 3600000 / 60000) ++
    ":" ++ pad2 (rem % 60000 / 1000) ++ "." ++ pad3 (rem % 1000) ++ "Z"

/-- The part of a data URL after its first comma: frame.uri.split(",")[1]
(a canvas data URL always contains the comma). -/
def base64Body (uri : String) : String :=
  (uri.splitOn ",").getD 1 ""

/-- One element of the framesInfo array built at lines 103-108: the
manifest records exactly id, fileName, eyeSide and the takenAt date
serialized with toISOString. -/
structure ManifestEntry where
  id : Nat
  fileName : String
  eyeSide : EyeSide
  takenAt : String
deriving DecidableEq, Repr

/-- A file placed inside one of the archive's top-level folders via
folder.file(name, data, base64): the folder's name, the file's name and
the base64 payload handed to JSZip. -/
structure ZipFile where
  folder : String
  name : String
  content : String
deriving DecidableEq, Repr

/-- The archive assembled by downloadSelectedImages at its JSZip
interface: the explicitly created top-level folders, the files written
into them, and the manifest file at the archive root (its content kept
structurally; JSON.stringify serializes it). -/
structure Zip where
  folders : List String
  files : List ZipFile
  rootFileName : String
  manifest : List ManifestEntry
deriving DecidableEq, Repr

/-- What an invocation of downloadSelectedImages leaves behind: the alerts
shown, the archive handed to generateAsync (none when the function
returned early), and the file name passed to saveAs. -/
structure ArchiveResult where
  alerts : List String
  archive : Option Zip
  savedAs : Option String
deriving DecidableEq, Repr

/-- The manifest entry built for one frame at lines 103-108. -/
def mkManifestEntry (f : Frame) : ManifestEntry :=
  { id := f.id
    fileName := f.fileName
    eyeSide := f.eyeSide
    takenAt := toISOString f.takenAt }

/-- downloadSelectedImages (lines 83-113): filter the selected frames; if
none is selected, alert and return without producing anything; otherwise
create the OD and OE folders, write each selected frame's base64 payload
into the folder matching its eyeSide under its fileName, add
frames_info.json at the root, and save the blob as
frames_selecionados.zip. -/
def downloadSelectedImages (frames : List Frame) : ArchiveResult :=
  let selectedFrames := frames.filter (fun frame => frame.selected)
  if selectedFrames.length = 0 then
    { alerts := ["Nenhuma imagem foi selecionada, todas serão baixadas."]
      archive := none
      savedAs := none }
  else
    { alerts := []
      archive := some
        { folders := ["OD", "OE"]
          files := selectedFrames.map (fun frame =>
            if frame.eyeSide = EyeSide.OD then
              { folder := "OD", name := frame.fileName, content := base64Body frame.uri }
            else
              { folder := "OE", name := frame.fileName, content := base64Body frame.uri })
          rootFileName := "frames_info.json"
          manifest := selectedFrames.map mkManifestEntry }
      savedAs := some "frames_selecionados.zip" }

/-- What an invocation of downloadAllImages leaves behind: the alerts
shown and the (href, download) pairs of the anchor elements clicked, in
order. -/
structure DownloadResult where
  alerts : List String
  links : List (String × String)
deriving DecidableEq, Repr

/-- downloadAllImages (lines 115-137): download the selected frames if any
is selected, otherwise every frame; if that set is empty, alert that
nothing is available; otherwise announce the count and click one download
link per frame, in store order. -/
def downloadAllImages (frames : List Frame) : DownloadResult :=
  let framesToDownload :=
    if (frames.filter (fun frame => frame.selected)).length > 0 then
      frames.filter (fun frame => frame.selected)
    else frames
  if framesToDownload.length = 0 then
    { alerts := ["Nenhuma imagem disponível para download."], links := [] }
  else
    { alerts := [toString framesToDownload.length ++
        " imagens serão baixadas. Confirme os downloads no seu navegador."]
      links := framesToDownload.map (fun frame => (frame.uri, frame.fileName)) }

/-- Modelled from the spec (section 4.4, export-set selection rule): if the
user has marked one or more frames as selected, the export set is exactly
the selected frames; otherwise the export set is the entire frame store.
Stated here to compare the two download modes against it. -/
def exportSetSpec (frames : List Frame) : List Frame :=
  if (frames.filter (fun frame => frame.selected)).length > 0 then
    frames.filter (fun frame => frame.selected)
  else frames

/-- A concrete captured, unselected frame, as the capture tick would build
it in a fresh session. -/
def c1Frame : Frame :=
  { id := 0
    uri := "data:image/png;base64,AAA"
    fileName := "frame_0_OD.png"
    takenAt := 1000
    selected := false
    eyeSide := EyeSide.OD }

/-- C1: the individual-download mode does follow the export-set selection
rule (its download set equals the spec's export set for every store), but
the archive mode does not: with one captured frame and nothing selected
the spec's export set is the whole store, yet downloadSelectedImages
alerts that all images will be downloaded and then returns without
building or saving any archive. -/
theorem C1_export_rule_archive_aborts :
    (∀ frames : List Frame,
        (downloadAllImages frames).links =
          (exportSetSpec frames).map (fun frame => (frame.uri, frame.fileName))) ∧
    exportSetSpec [c1Frame] = [c1Frame] ∧
    (downloadSelectedImages [c1Frame]).archive = none ∧
    (downloadSelectedImages [c1Frame]).savedAs = none ∧
    (downloadSelectedImages [c1Frame]).alerts =
      ["Nenhuma imagem foi selecionada, todas serão baixadas."] := by
  refine ⟨?_, by decide, by decide, by decide, by decide⟩
  intro frames
  by_cases h : (frames.filter (fun frame => frame.selected)).length > 0
  · have h0 : ¬(frames.filter (fun frame => frame.selected)).length = 0 :=
      Nat.pos_iff_ne_zero.mp h
    simp [downloadAllImages, exportSetSpec, h, h0]
  · rcases frames with _ | ⟨f, rest⟩
    · simp [downloadAllImages, exportSetSpec]
    · simp [downloadAllImages, exportSetSpec, h]

/-- Environment of the first capture tick of the C2 trace. -/
def envA : TickEnv :=
  { paused := false, ended := false, now := 1000, image := "data:image/png;base64,AAA" }

/-- Environment of the second capture tick of the C2 trace. -/
def envB : TickEnv :=
  { paused := false, ended := false, now := 1500, image := "data:image/png;base64,BBB" }

/-- The C2 trace: load a video, start capture with the toggle at OD,
capture frame 0, toggle to OE, and let the same running interval capture
frame 1. -/
def c2Trace : List Event :=
  [Event.uploadVideo (some "v"), Event.clickStart, Event.tick 1 envA,
   Event.toggleEyeSide, Event.tick 1 envB]

/-- C2: evaluation of the code on the C2 trace.  Toggling the eye side
never retags frame 0 (and in general never touches the stored frames),
but frame 1 — captured by the interval still running from before the
toggle — is tagged OD, not the new toggle value OE: the interval callback
reads the eyeSide closed over when capture started, not at each tick, so
the component shows OE while tagging new frames OD. -/
theorem C2_toggle_is_stale_in_running_capture :
    (∀ s : ExtractorState, (step s Event.toggleEyeSide).frames = s.frames) ∧
    (run initState c2Trace).eyeSide = EyeSide.OE ∧
    (run initState c2Trace).isExtracting = true ∧
    (run initState c2Trace).frames.map Frame.eyeSide = [EyeSide.OD, EyeSide.OD] ∧
    (run initState c2Trace).frames.map Frame.fileName =
      ["frame_0_OD.png", "frame_1_OD.png"] := by
  refine ⟨?_, by decide, by decide, by decide, by decide⟩
  intro s
  simp only [step]
  by_cases h : s.videoFile = none <;> simp [h]

/-- Timer bookkeeping invariant of the running component: at most one
interval is scheduled, frameIntervalRef points at every scheduled
interval, and none is scheduled while not extracting. -/
def timersInv (s : ExtractorState) : Prop :=
  s.activeTimers.length ≤ 1 ∧
  (∀ t ∈ s.activeTimers, s.frameInterval = some t.tid) ∧
  (s.isExtracting = false → s.activeTimers = [])

theorem timersInv_init : timersInv initState := by
  refine ⟨by decide, ?_, fun _ => rfl⟩
  intro t ht
  cases ht

theorem stopExtracting_clears (s : ExtractorState)
    (href : ∀ t ∈ s.activeTimers, s.frameInterval = some t.tid) :
    (stopExtracting s).activeTimers = [] ∧
    (stopExtracting s).isExtracting = false ∧
    (stopExtracting s).frameInterval = none ∧
    (stopExtracting s).frames = s.frames := by
  unfold stopExtracting
  cases hF : s.frameInterval with
  | none =>
      have hA : s.activeTimers = [] := by
        cases hA : s.activeTimers with
        | nil => rfl
        | cons t rest =>
            have := href t (by rw [hA]; exact List.mem_cons_self t rest)
            rw [hF] at this
            cases this
      simp [hA]
  | some tid =>
      refine ⟨?_, rfl, rfl, rfl⟩
      simp only [List.filter_eq_nil_iff]
      intro t ht
      have := href t ht
      rw [hF] at this
      have htid : t.tid = tid := by injection this.symm
      simp [htid]

theorem timersInv_step (s : ExtractorState) (e : Event) (h : timersInv s) :
    timersInv (step s e) := by
  obtain ⟨hlen, href, hstop⟩ := h
  cases e with
  | tick tid env =>
      simp only [step]
      cases hf : s.activeTimers.find? (fun t => t.tid == tid) with
      | none => exact ⟨hlen, href, hstop⟩
      | some t =>
          simp only [tickBody]
          by_cases hp : (env.paused || env.ended) = true
          · rw [if_pos hp]
            obtain ⟨h1, h2, h3, _⟩ := stopExtracting_clears s href
            exact ⟨by simp [h1], by simp [h1], fun _ => h1⟩
          · rw [if_neg hp]
            exact ⟨hlen, href, hstop⟩
  | clickStart =>
      simp only [step]
      by_cases hv : s.videoFile = none
      · rw [if_pos hv]; exact ⟨hlen, href, hstop⟩
      · rw [if_neg hv]
        by_cases he : s.isExtracting = true
        · rw [if_pos he]; exact ⟨hlen, href, hstop⟩
        · rw [if_neg he]
          have hfalse : s.isExtracting = false := by
            revert he; cases s.isExtracting <;> simp
          have hA : s.activeTimers = [] := hstop hfalse
          unfold extractFrames
          by_cases hg1 : s.videoPresent = false ∨ s.canvasPresent = false
          · rw [if_pos hg1]; exact ⟨hlen, href, hstop⟩
          · rw [if_neg hg1]
            by_cases hg2 : s.contextPresent = false
            · rw [if_pos hg2]; exact ⟨hlen, href, hstop⟩
            · rw [if_neg hg2]
              refine ⟨by simp [hA], ?_, by simp⟩
              intro t ht
              simp only [hA, List.nil_append, List.mem_singleton] at ht
              rw [ht]
  | clickStop =>
      simp only [step]
      by_cases hv : s.videoFile = none
      · rw [if_pos hv]; exact ⟨hlen, href, hstop⟩
      · rw [if_neg hv]
        by_cases he : s.isExtracting = false
        · rw [if_pos he]; exact ⟨hlen, href, hstop⟩
        · rw [if_neg he]
          obtain ⟨h1, h2, h3, _⟩ := stopExtracting_clears s href
          exact ⟨by simp [h1], by simp [h1], fun _ => h1⟩
  | toggleEyeSide =>
      simp only [step]
      by_cases hv : s.videoFile = none
      · rw [if_pos hv]; exact ⟨hlen, href, hstop⟩
      · rw [if_neg hv]; exact ⟨hlen, href, hstop⟩
  | uploadVideo file =>
      cases file with
      | none => exact ⟨hlen, href, hstop⟩
      | some f => exact ⟨hlen, href, hstop⟩
  | toggleSel id => exact ⟨hlen, href, hstop⟩

theorem timersInv_run_aux (es : List Event) (s : ExtractorState) (h : timersInv s) :
    timersInv (run s es) := by
  induction es generalizing s with
  | nil => exact h
  | cons e rest ih => exact ih (step s e) (timersInv_step s e h)

/-- The component after loading a video and clicking start: extraction is
running with the single interval id 1 scheduled, the closure side OD. -/
def sessionStart : ExtractorState :=
  run initState [Event.uploadVideo (some "v"), Event.clickStart]

/-- C3 counterexample: with capture already running (sessionStart), calling
extractFrames again is not a no-op — it changes the state, schedules a
second recurring interval, and the stop that follows clears only the new
interval, leaving the first one running (orphaned). -/
theorem C3_counterexample_second_start :
    sessionStart.isExtracting = true ∧
    extractFrames sessionStart ≠ sessionStart ∧
    (extractFrames sessionStart).activeTimers.length = 2 ∧
    (stopExtracting (extractFrames sessionStart)).activeTimers.length = 1 :=
  ⟨by decide, by decide, by decide, by decide⟩

/-- C3 amended: the extractFrames function itself is not guarded against
re-entrant calls; what prevents them is the UI, whose start button is
disabled while isExtracting.  Clicking start while capture runs is a
no-op, and along every event trace the component admits, at most one
interval is ever scheduled. -/
theorem C3_ui_start_guarded (s : ExtractorState) (h : s.isExtracting = true)
    (es : List Event) :
    step s Event.clickStart = s ∧
    (run initState es).activeTimers.length ≤ 1 := by
  constructor
  · simp only [step]
    by_cases hv : s.videoFile = none
    · rw [if_pos hv]
    · rw [if_neg hv, if_pos h]
  · exact (timersInv_run_aux es initState timersInv_init).1

/-- Witness for C3: the amended theorem applied to the running state
sessionStart and the trace that clicks start twice. -/
theorem C3_ui_start_guarded_witness :
    sessionStart.isExtracting = true ∧
    (step sessionStart Event.clickStart = sessionStart ∧
      (run initState [Event.uploadVideo (some "v"), Event.clickStart,
        Event.clickStart]).activeTimers.length ≤ 1) :=
  ⟨by decide, C3_ui_start_guarded sessionStart (by decide)
      [Event.uploadVideo (some "v"), Event.clickStart, Event.clickStart]⟩

/-- The frames a run of consecutive playing ticks appends: one frame per
tick, ids counting up from gid, all tagged with the closure side. -/
def capturedFrames (gid : Nat) (side : EyeSide) : List TickEnv → List Frame
  | [] => []
  | env :: rest =>
      { id := gid
        uri := env.image
        fileName := frameFileName gid side
        takenAt := env.now
        selected := false
        eyeSide := side } :: capturedFrames (gid + 1) side rest

theorem capturedFrames_map_id (gid : Nat) (side : EyeSide) (envs : List TickEnv) :
    (capturedFrames gid side envs).map Frame.id = List.range' gid envs.length := by
  induction envs generalizing gid with
  | nil => rfl
  | cons env rest ih =>
      simp only [capturedFrames, List.map_cons, List.length_cons, List.range'_succ, ih]

theorem capturedFrames_map_takenAt (gid : Nat) (side : EyeSide) (envs : List TickEnv) :
    (capturedFrames gid side envs).map Frame.takenAt = envs.map TickEnv.now := by
  induction envs generalizing gid with
  | nil => rfl
  | cons env rest ih => simp only [capturedFrames, List.map_cons, ih]

theorem capturedFrames_length (gid : Nat) (side : EyeSide) (envs : List TickEnv) :
    (capturedFrames gid side envs).length = envs.length := by
  induction envs generalizing gid with
  | nil => rfl
  | cons env rest ih => simp only [capturedFrames, List.length_cons, ih]

/-- Over any run of ticks of a scheduled interval during which the video
keeps playing, the component appends exactly the capturedFrames sequence
and advances the id counter by the number of ticks; nothing else in the
state changes. -/
theorem run_ticks_playing (envs : List TickEnv) :
    ∀ (s : ExtractorState) (t : Timer),
      s.activeTimers.find? (fun x => x.tid == t.tid) = some t →
      (∀ env ∈ envs, env.paused = false ∧ env.ended = false) →
      run s (envs.map (fun env => Event.tick t.tid env)) =
        { s with
          frames := s.frames ++ capturedFrames s.globalFrameId t.sideAtStart envs
          globalFrameId := s.globalFrameId + envs.length } := by
  induction envs with
  | nil =>
      intro s t _ _
      simp [run, capturedFrames]
  | cons env rest ih =>
      intro s t hfind hplay
      obtain ⟨hp, he⟩ := hplay env (List.mem_cons_self env rest)
      have hstep : step s (Event.tick t.tid env) =
          { s with
            frames := s.frames ++
              [{ id := s.globalFrameId
                 uri := env.image
                 fileName := frameFileName s.globalFrameId t.sideAtStart
                 takenAt := env.now
                 selected := false
                 eyeSide := t.sideAtStart }]
            globalFrameId := s.globalFrameId + 1 } := by
        simp [step, hfind, tickBody, hp, he]
      have hmain : run s ((env :: rest).map (fun env => Event.tick t.tid env)) =
          run (step s (Event.tick t.tid env)) (rest.map (fun env => Event.tick t.tid env)) := by
        rw [List.map_cons]
        rfl
      rw [hmain, hstep,
        ih { s with
              frames := s.frames ++
                [{ id := s.globalFrameId
                   uri := env.image
                   fileName := frameFileName s.globalFrameId t.sideAtStart
                   takenAt := env.now
                   selected := false
                   eyeSide := t.sideAtStart }]
              globalFrameId := s.globalFrameId + 1 }
          t hfind (fun e hm => hplay e (List.mem_cons_of_mem env hm))]
      simp [capturedFrames, List.append_assoc]
      omega

/-- C4: in a fresh session with a video loaded and capture started, a run
of N ticks during which the video keeps playing appends exactly N frames,
whose ids are 0..N-1 in capture order — strictly increasing, hence
pairwise distinct — and whose capture timestamps are non-decreasing
whenever the tick clock is. -/
theorem C4_fresh_session_ticks (envs : List TickEnv)
    (hplay : ∀ env ∈ envs, env.paused = false ∧ env.ended = false)
    (hmono : List.Pairwise (fun a b => a.now ≤ b.now) envs) :
    (run sessionStart (envs.map (fun env => Event.tick 1 env))).frames.length = envs.length ∧
    (run sessionStart (envs.map (fun env => Event.tick 1 env))).frames.map Frame.id =
      List.range envs.length ∧
    List.Pairwise (· < ·)
      ((run sessionStart (envs.map (fun env => Event.tick 1 env))).frames.map Frame.id) ∧
    List.Pairwise (· ≤ ·)
      ((run sessionStart (envs.map (fun env => Event.tick 1 env))).frames.map Frame.takenAt) := by
  have hfind : sessionStart.activeTimers.find?
      (fun x => x.tid == (Timer.mk 1 EyeSide.OD).tid) = some (Timer.mk 1 EyeSide.OD) := by
    decide
  have hrun := run_ticks_playing envs sessionStart (Timer.mk 1 EyeSide.OD) hfind hplay
  have hframes : (run sessionStart (envs.map (fun env => Event.tick 1 env))).frames =
      capturedFrames 0 EyeSide.OD envs := by
    rw [hrun]
    show sessionStart.frames ++ capturedFrames sessionStart.globalFrameId EyeSide.OD envs =
      capturedFrames 0 EyeSide.OD envs
    rw [show sessionStart.frames = [] from rfl,
      show sessionStart.globalFrameId = 0 from rfl, List.nil_append]
  rw [hframes]
  refine ⟨capturedFrames_length 0 EyeSide.OD envs, ?_, ?_, ?_⟩
  · rw [capturedFrames_map_id, List.range_eq_range']
  · rw [capturedFrames_map_id]
    exact List.pairwise_lt_range' 0 envs.length
  · rw [capturedFrames_map_takenAt]
    exact List.pairwise_map.mpr hmono

/-- Witness for C4: two playing ticks with non-decreasing clock values
append frames 0 and 1 in order. -/
theorem C4_fresh_session_ticks_witness :
    ((∀ env ∈ [envA, envB], env.paused = false ∧ env.ended = false) ∧
      List.Pairwise (fun a b : TickEnv => a.now ≤ b.now) [envA, envB]) ∧
    ((run sessionStart ([envA, envB].map (fun env => Event.tick 1 env))).frames.length =
        [envA, envB].length ∧
      (run sessionStart ([envA, envB].map (fun env => Event.tick 1 env))).frames.map Frame.id =
        List.range [envA, envB].length ∧
      List.Pairwise (· < ·)
        ((run sessionStart ([envA, envB].map (fun env => Event.tick 1 env))).frames.map Frame.id) ∧
      List.Pairwise (· ≤ ·)
        ((run sessionStart ([envA, envB].map (fun env => Event.tick 1 env))).frames.map
          Frame.takenAt)) :=
  ⟨⟨by decide, by decide⟩, C4_fresh_session_ticks [envA, envB] (by decide) (by decide)⟩

theorem files_filter_od (l : List Frame) :
    ((l.map (fun frame =>
        if frame.eyeSide = EyeSide.OD then
          ({ folder := "OD", name := frame.fileName, content := base64Body frame.uri } : ZipFile)
        else
          { folder := "OE", name := frame.fileName, content := base64Body frame.uri })).filter
      (fun zf => zf.folder == "OD")) =
    (l.filter (fun frame => frame.eyeSide == EyeSide.OD)).map
      (fun frame =>
        { folder := "OD", name := frame.fileName, content := base64Body frame.uri }) := by
  induction l with
  | nil => rfl
  | cons f rest ih =>
      by_cases h : f.eyeSide = EyeSide.OD
      · simp only [List.map_cons, List.filter_cons, h]
        simp +decide [ih]
      · have h2 : f.eyeSide = EyeSide.OE := by
          cases hs : f.eyeSide
          · exact absurd hs h
          · rfl
        simp only [List.map_cons, List.filter_cons, h2]
        simp +decide [ih]

theorem files_filter_oe (l : List Frame) :
    ((l.map (fun frame =>
        if frame.eyeSide = EyeSide.OD then
          ({ folder := "OD", name := frame.fileName, content := base64Body frame.uri } : ZipFile)
        else
          { folder := "OE", name := frame.fileName, content := base64Body frame.uri })).filter
      (fun zf => zf.folder == "OE")) =
    (l.filter (fun frame => frame.eyeSide == EyeSide.OE)).map
      (fun frame =>
        { folder := "OE", name := frame.fileName, content := base64Body frame.uri }) := by
  induction l with
  | nil => rfl
  | cons f rest ih =>
      by_cases h : f.eyeSide = EyeSide.OD
      · simp only [List.map_cons, List.filter_cons, h]
        simp +decide [ih]
      · have h2 : f.eyeSide = EyeSide.OE := by
          cases hs : f.eyeSide
          · exact absurd hs h
          · rfl
        simp only [List.map_cons, List.filter_cons, h2]
        simp +decide [ih]

/-- C5: whenever the archive export produces an archive (at least one
frame is selected, so the export set is exactly the selected frames), it
creates the two top-level folders OD and OE, writes each export frame's
base64 image payload into the folder matching its eyeSide under the
frame's fileName — the OD folder holds exactly the OD frames of the
export set in order, the OE folder the OE frames — puts the single
manifest frames_info.json at the archive root, and saves the archive as
frames_selecionados.zip. -/
theorem C5_archive_layout (frames : List Frame)
    (hsel : ¬(frames.filter (fun frame => frame.selected)).length = 0) :
    (downloadSelectedImages frames).savedAs = some "frames_selecionados.zip" ∧
    (downloadSelectedImages frames).alerts = [] ∧
    ∃ z, (downloadSelectedImages frames).archive = some z ∧
      z.folders = ["OD", "OE"] ∧
      z.rootFileName = "frames_info.json" ∧
      z.files.length = (frames.filter (fun frame => frame.selected)).length ∧
      (∀ zf ∈ z.files, zf.folder = "OD" ∨ zf.folder = "OE") ∧
      z.files.filter (fun zf => zf.folder == "OD") =
        ((frames.filter (fun frame => frame.selected)).filter
            (fun frame => frame.eyeSide == EyeSide.OD)).map
          (fun frame =>
            { folder := "OD", name := frame.fileName, content := base64Body frame.uri }) ∧
      z.files.filter (fun zf => zf.folder == "OE") =
        ((frames.filter (fun frame => frame.selected)).filter
            (fun frame => frame.eyeSide == EyeSide.OE)).map
          (fun frame =>
            { folder := "OE", name := frame.fileName, content := base64Body frame.uri }) := by
  simp only [downloadSelectedImages, if_neg hsel]
  refine ⟨trivial, trivial, _, rfl, rfl, rfl, by simp, ?_, ?_, ?_⟩
  · intro zf hm
    rcases List.mem_map.mp hm with ⟨f, _, rfl⟩
    by_cases h : f.eyeSide = EyeSide.OD
    · left
      simp [h]
    · right
      simp [h]
  · exact files_filter_od (frames.filter (fun frame => frame.selected))
  · exact files_filter_oe (frames.filter (fun frame => frame.selected))

/-- A selected OD frame used by the export witnesses. -/
def c5FrameOD : Frame :=
  { id := 0
    uri := "data:image/png;base64,AAA"
    fileName := "frame_0_OD.png"
    takenAt := 1000
    selected := true
    eyeSide := EyeSide.OD }

/-- A selected OE frame used by the export witnesses. -/
def c5FrameOE : Frame :=
  { id := 1
    uri := "data:image/png;base64,BBB"
    fileName := "frame_1_OE.png"
    takenAt := 1500
    selected := true
    eyeSide := EyeSide.OE }

/-- Witness for C5: the archive layout at a concrete two-frame export set
with one frame per eye side. -/
theorem C5_archive_layout_witness :
    (¬([c5FrameOD, c5FrameOE].filter (fun frame => frame.selected)).length = 0) ∧
    ((downloadSelectedImages [c5FrameOD, c5FrameOE]).savedAs =
        some "frames_selecionados.zip" ∧
      (downloadSelectedImages [c5FrameOD, c5FrameOE]).alerts = [] ∧
      ∃ z, (downloadSelectedImages [c5FrameOD, c5FrameOE]).archive = some z ∧
        z.folders = ["OD", "OE"] ∧
        z.rootFileName = "frames_info.json" ∧
        z.files.length = ([c5FrameOD, c5FrameOE].filter (fun frame => frame.selected)).length ∧
        (∀ zf ∈ z.files, zf.folder = "OD" ∨ zf.folder = "OE") ∧
        z.files.filter (fun zf => zf.folder == "OD") =
          (([c5FrameOD, c5FrameOE].filter (fun frame => frame.selected)).filter
              (fun frame => frame.eyeSide == EyeSide.OD)).map
            (fun frame =>
              { folder := "OD", name := frame.fileName, content := base64Body frame.uri }) ∧
        z.files.filter (fun zf => zf.folder == "OE") =
          (([c5FrameOD, c5FrameOE].filter (fun frame => frame.selected)).filter
              (fun frame => frame.eyeSide == EyeSide.OE)).map
            (fun frame =>
              { folder := "OE", name := frame.fileName, content := base64Body frame.uri })) :=
  ⟨by decide, C5_archive_layout [c5FrameOD, c5FrameOE] (by decide)⟩

/-- C6: whenever the archive export produces an archive, its root manifest
frames_info.json lists, for every frame of the export set and in
export-set order, exactly the object with fields id, fileName, eyeSide
and takenAt, the latter the frame's capture date serialized by
Date.prototype.toISOString (an ISO-8601 string). -/
theorem C6_manifest_content (frames : List Frame)
    (hsel : ¬(frames.filter (fun frame => frame.selected)).length = 0) :
    ∃ z, (downloadSelectedImages frames).archive = some z ∧
      z.rootFileName = "frames_info.json" ∧
      z.manifest = (frames.filter (fun frame => frame.selected)).map
        (fun frame =>
          { id := frame.id
            fileName := frame.fileName
            eyeSide := frame.eyeSide
            takenAt := toISOString frame.takenAt }) ∧
      z.manifest.length = (frames.filter (fun frame => frame.selected)).length := by
  simp only [downloadSelectedImages, if_neg hsel]
  exact ⟨_, rfl, rfl, rfl, by simp [mkManifestEntry]⟩

/-- Witness for C6: the manifest at the concrete two-frame export set. -/
theorem C6_manifest_content_witness :
    (¬([c5FrameOD, c5FrameOE].filter (fun frame => frame.selected)).length = 0) ∧
    (∃ z, (downloadSelectedImages [c5FrameOD, c5FrameOE]).archive = some z ∧
      z.rootFileName = "frames_info.json" ∧
      z.manifest = ([c5FrameOD, c5FrameOE].filter (fun frame => frame.selected)).map
        (fun frame =>
          { id := frame.id
            fileName := frame.fileName
            eyeSide := frame.eyeSide
            takenAt := toISOString frame.takenAt }) ∧
      z.manifest.length = ([c5FrameOD, c5FrameOE].filter (fun frame => frame.selected)).length) :=
  ⟨by decide, C6_manifest_content [c5FrameOD, c5FrameOE] (by decide)⟩

/-- C10: every archive the export produces contains both top-level folders
OD and OE, created unconditionally before the frames are distributed; in
particular, when every frame of the export set carries the same eyeSide —
say OD — the OE folder is still present, just empty of files. -/
theorem C10_both_folders_always (frames : List Frame)
    (hsel : ¬(frames.filter (fun frame => frame.selected)).length = 0) :
    ∃ z, (downloadSelectedImages frames).archive = some z ∧
      z.folders = ["OD", "OE"] ∧
      "OD" ∈ z.folders ∧ "OE" ∈ z.folders ∧
      ((∀ f ∈ frames.filter (fun frame => frame.selected), f.eyeSide = EyeSide.OD) →
        z.files.filter (fun zf => zf.folder == "OE") = []) := by
  simp only [downloadSelectedImages, if_neg hsel]
  refine ⟨_, rfl, rfl, by simp, by simp, ?_⟩
  intro hall
  rw [files_filter_oe]
  have : (frames.filter (fun frame => frame.selected)).filter
      (fun frame => frame.eyeSide == EyeSide.OE) = [] := by
    rw [List.filter_eq_nil_iff]
    intro f hm
    simp +decide [hall f hm]
  rw [this]
  rfl

/-- Witness for C10: a one-frame export set, all OD; the archive still has
the OE folder, and that folder holds no file. -/
theorem C10_both_folders_always_witness :
    ((¬([c5FrameOD].filter (fun frame => frame.selected)).length = 0) ∧
      ∀ f ∈ [c5FrameOD].filter (fun frame => frame.selected), f.eyeSide = EyeSide.OD) ∧
    (∃ z, (downloadSelectedImages [c5FrameOD]).archive = some z ∧
      z.folders = ["OD", "OE"] ∧
      "OD" ∈ z.folders ∧ "OE" ∈ z.folders ∧
      ((∀ f ∈ [c5FrameOD].filter (fun frame => frame.selected), f.eyeSide = EyeSide.OD) →
        z.files.filter (fun zf => zf.folder == "OE") = [])) :=
  ⟨⟨by decide, by decide⟩, C10_both_folders_always [c5FrameOD] (by decide)⟩

/-- Recognizer for interval-firing events. -/
def isTickEvent : Event → Bool
  | Event.tick _ _ => true
  | _ => false

/-- With no interval scheduled, tick events change nothing: the browser
has nothing left to fire. -/
theorem run_ticks_inactive (evs : List Event) (s : ExtractorState)
    (hA : s.activeTimers = []) (hticks : ∀ e ∈ evs, isTickEvent e = true) :
    run s evs = s := by
  induction evs with
  | nil => rfl
  | cons e rest ih =>
      cases e with
      | tick tid env =>
          have hstep : step s (Event.tick tid env) = s := by
            simp [step, hA]
          show run (step s (Event.tick tid env)) rest = s
          rw [hstep]
          exact ih (fun e hm => hticks e (List.mem_cons_of_mem _ hm))
      | clickStart => exact absurd (hticks _ (List.mem_cons_self _ rest)) (by simp [isTickEvent])
      | clickStop => exact absurd (hticks _ (List.mem_cons_self _ rest)) (by simp [isTickEvent])
      | toggleEyeSide => exact absurd (hticks _ (List.mem_cons_self _ rest)) (by simp [isTickEvent])
      | uploadVideo f => exact absurd (hticks _ (List.mem_cons_self _ rest)) (by simp [isTickEvent])
      | toggleSel id => exact absurd (hticks _ (List.mem_cons_self _ rest)) (by simp [isTickEvent])

/-- C8: on a tick that finds the video paused or ended, the interval is
cleared and the extracting state exited, no frame is appended by that
tick, and no later tick can append anything either — with the interval
gone, every further tick event leaves the state exactly as it is, until a
new start schedules a fresh interval. -/
theorem C8_paused_tick_stops (s : ExtractorState) (t : Timer) (env : TickEnv)
    (hA : s.activeTimers = [t]) (hF : s.frameInterval = some t.tid)
    (hstop : env.paused = true ∨ env.ended = true) :
    (step s (Event.tick t.tid env)).isExtracting = false ∧
    (step s (Event.tick t.tid env)).frameInterval = none ∧
    (step s (Event.tick t.tid env)).activeTimers = [] ∧
    (step s (Event.tick t.tid env)).frames = s.frames ∧
    ∀ evs : List Event, (∀ e ∈ evs, isTickEvent e = true) →
      run (step s (Event.tick t.tid env)) evs = step s (Event.tick t.tid env) := by
  have hfind : s.activeTimers.find? (fun x => x.tid == t.tid) = some t := by
    rw [hA]
    simp
  have hcond : (env.paused || env.ended) = true := by
    rcases hstop with h | h <;> simp [h]
  have hstep : step s (Event.tick t.tid env) = stopExtracting s := by
    simp [step, hfind, tickBody, hcond]
  have href : ∀ x ∈ s.activeTimers, s.frameInterval = some x.tid := by
    intro x hx
    rw [hA, List.mem_singleton] at hx
    subst hx
    exact hF
  obtain ⟨h1, h2, h3, h4⟩ := stopExtracting_clears s href
  rw [hstep]
  exact ⟨h2, h3, h1, h4, fun evs hticks => run_ticks_inactive evs _ h1 hticks⟩

/-- A tick environment in which the video has been paused. -/
def envP : TickEnv :=
  { paused := true, ended := false, now := 2000, image := "data:image/png;base64,CCC" }

/-- Witness for C8: the running session sees a paused tick; the interval
is cleared, the store untouched, and a further tick changes nothing. -/
theorem C8_paused_tick_stops_witness :
    (sessionStart.activeTimers = [Timer.mk 1 EyeSide.OD] ∧
      sessionStart.frameInterval = some (Timer.mk 1 EyeSide.OD).tid ∧
      (envP.paused = true ∨ envP.ended = true)) ∧
    ((step sessionStart (Event.tick (Timer.mk 1 EyeSide.OD).tid envP)).isExtracting = false ∧
      (step sessionStart (Event.tick (Timer.mk 1 EyeSide.OD).tid envP)).frameInterval = none ∧
      (step sessionStart (Event.tick (Timer.mk 1 EyeSide.OD).tid envP)).activeTimers = [] ∧
      (step sessionStart (Event.tick (Timer.mk 1 EyeSide.OD).tid envP)).frames =
        sessionStart.frames ∧
      ∀ evs : List Event, (∀ e ∈ evs, isTickEvent e = true) →
        run (step sessionStart (Event.tick (Timer.mk 1 EyeSide.OD).tid envP)) evs =
          step sessionStart (Event.tick (Timer.mk 1 EyeSide.OD).tid envP)) :=
  ⟨⟨by decide, by decide, Or.inl (by decide)⟩,
    C8_paused_tick_stops sessionStart (Timer.mk 1 EyeSide.OD) envP
      (by decide) (by decide) (Or.inl (by decide))⟩

/-- Whether an event, fired against state s, is a tick that captures a
frame: its interval is still scheduled and the video is neither paused
nor ended at that moment. -/
def isCapture (s : ExtractorState) : Event → Bool
  | Event.tick tid env =>
      (s.activeTimers.find? (fun t => t.tid == tid)).isSome && !env.paused && !env.ended
  | _ => false

/-- The number of frames a trace of events captures from a state. -/
def countCaptures : ExtractorState → List Event → Nat
  | _, [] => 0
  | s, e :: es => (if isCapture s e then 1 else 0) + countCaptures (step s e) es

theorem extractFrames_keeps (s : ExtractorState) :
    (extractFrames s).frames = s.frames ∧
    (extractFrames s).globalFrameId = s.globalFrameId := by
  unfold extractFrames
  split
  · exact ⟨rfl, rfl⟩
  · split
    · exact ⟨rfl, rfl⟩
    · exact ⟨rfl, rfl⟩

theorem stopExtracting_keeps (s : ExtractorState) :
    (stopExtracting s).frames = s.frames ∧
    (stopExtracting s).globalFrameId = s.globalFrameId := by
  unfold stopExtracting
  cases s.frameInterval
  · exact ⟨rfl, rfl⟩
  · exact ⟨rfl, rfl⟩

/-- One step advances the globalFrameId ref by one exactly on capturing
ticks and leaves it alone on every other event. -/
theorem step_globalFrameId (s : ExtractorState) (e : Event) :
    (step s e).globalFrameId = s.globalFrameId + (if isCapture s e then 1 else 0) := by
  cases e with
  | tick tid env =>
      by_cases hcap : isCapture s (Event.tick tid env) = true
      · have hcap2 := hcap
        simp only [isCapture, Bool.and_eq_true, Option.isSome_iff_exists] at hcap2
        obtain ⟨⟨⟨t, ht⟩, hp⟩, he⟩ := hcap2
        have hp2 : env.paused = false := by revert hp; cases env.paused <;> simp
        have he2 : env.ended = false := by revert he; cases env.ended <;> simp
        rw [if_pos hcap]
        simp [step, ht, tickBody, hp2, he2]
      · rw [if_neg hcap]
        cases hfx : s.activeTimers.find? (fun t => t.tid == tid) with
        | none => simp [step, hfx]
        | some t =>
            cases hp : env.paused <;> cases hen : env.ended
            · exact absurd (by simp [isCapture, hfx, hp, hen]) hcap
            · simp [step, hfx, tickBody, hp, hen, (stopExtracting_keeps s).2]
            · simp [step, hfx, tickBody, hp, hen, (stopExtracting_keeps s).2]
            · simp [step, hfx, tickBody, hp, hen, (stopExtracting_keeps s).2]
  | clickStart =>
      have hg : (step s Event.clickStart).globalFrameId = s.globalFrameId := by
        simp only [step]
        split
        · rfl
        · split
          · rfl
          · exact (extractFrames_keeps s).2
      rw [hg]
      simp [isCapture]
  | clickStop =>
      have hg : (step s Event.clickStop).globalFrameId = s.globalFrameId := by
        simp only [step]
        split
        · rfl
        · split
          · rfl
          · exact (stopExtracting_keeps s).2
      rw [hg]
      simp [isCapture]
  | toggleEyeSide =>
      have hg : (step s Event.toggleEyeSide).globalFrameId = s.globalFrameId := by
        simp only [step]
        split <;> rfl
      rw [hg]
      simp [isCapture]
  | uploadVideo file =>
      cases file with
      | none => simp [step, handleVideoUpload, isCapture]
      | some f => simp [step, handleVideoUpload, isCapture]
  | toggleSel id => simp [step, toggleFrameSelection, isCapture]

/-- Over any trace, the globalFrameId ref equals its initial value plus
the number of frames captured along the trace: it counts every capture
since page load and is reset by nothing. -/
theorem run_globalFrameId (es : List Event) :
    ∀ s : ExtractorState, (run s es).globalFrameId = s.globalFrameId + countCaptures s es := by
  induction es with
  | nil =>
      intro s
      simp [run, countCaptures]
  | cons e rest ih =>
      intro s
      show (run (step s e) rest).globalFrameId = _
      rw [ih (step s e), step_globalFrameId]
      simp only [countCaptures]
      omega

/-- Every stored frame's id stays below the globalFrameId ref. -/
theorem step_preserves_id_bound (s : ExtractorState) (e : Event)
    (h : ∀ fr ∈ s.frames, fr.id < s.globalFrameId) :
    ∀ fr ∈ (step s e).frames, fr.id < (step s e).globalFrameId := by
  cases e with
  | tick tid env =>
      simp only [step]
      cases hf : s.activeTimers.find? (fun t => t.tid == tid) with
      | none => exact h
      | some t =>
          simp only [tickBody]
          by_cases hc : (env.paused || env.ended) = true
          · rw [if_pos hc, (stopExtracting_keeps s).1, (stopExtracting_keeps s).2]
            exact h
          · rw [if_neg hc]
            intro fr hm
            rcases List.mem_append.mp hm with hm | hm
            · exact Nat.lt_succ_of_lt (h fr hm)
            · rw [List.mem_singleton] at hm
              subst hm
              exact Nat.lt_succ_self _
  | clickStart =>
      simp only [step]
      split
      · exact h
      · split
        · exact h
        · rw [(extractFrames_keeps s).1, (extractFrames_keeps s).2]
          exact h
  | clickStop =>
      simp only [step]
      split
      · exact h
      · split
        · exact h
        · rw [(stopExtracting_keeps s).1, (stopExtracting_keeps s).2]
          exact h
  | toggleEyeSide =>
      simp only [step]
      split
      · exact h
      · exact h
  | uploadVideo file =>
      cases file with
      | none => exact h
      | some f =>
          intro fr hm
          exact absurd hm (List.not_mem_nil fr)
  | toggleSel id =>
      intro fr hm
      simp only [step, toggleFrameSelection, toggleFrames] at hm
      rcases List.mem_map.mp hm with ⟨orig, horig, rfl⟩
      show (if orig.id = id then { orig with selected := !orig.selected } else orig).id <
        (toggleFrameSelection s id).globalFrameId
      rw [toggleFrames_point]
      exact h orig horig

theorem run_id_bound (es : List Event) :
    ∀ s : ExtractorState, (∀ fr ∈ s.frames, fr.id < s.globalFrameId) →
      ∀ fr ∈ (run s es).frames, fr.id < (run s es).globalFrameId := by
  induction es with
  | nil => exact fun s h => h
  | cons e rest ih => exact fun s h => ih (step s e) (step_preserves_id_bound s e h)

/-- C9: loading a new video clears the frame store but leaves the
globalFrameId ref alone; since that ref equals the number of frames
captured since page load, the first frame captured from the new video
gets exactly that number as its id — ids do not restart at 0 and stay
above every id stored before the upload, so they never collide across
videos of one session. -/
theorem C9_new_video_keeps_counter (es : List Event) (f : String) (t : Timer) (env : TickEnv)
    (hfind : (run initState es).activeTimers.find? (fun x => x.tid == t.tid) = some t)
    (hp : env.paused = false) (he : env.ended = false) :
    (run initState (es ++ [Event.uploadVideo (some f)])).frames = [] ∧
    (run initState (es ++ [Event.uploadVideo (some f)])).globalFrameId =
      countCaptures initState es ∧
    (∀ fr ∈ (run initState es).frames, fr.id < countCaptures initState es) ∧
    (run initState (es ++ [Event.uploadVideo (some f), Event.tick t.tid env])).frames.map
      Frame.id = [countCaptures initState es] := by
  have hgid : (run initState es).globalFrameId = countCaptures initState es := by
    rw [run_globalFrameId]
    show 0 + countCaptures initState es = countCaptures initState es
    omega
  have h1 : run initState (es ++ [Event.uploadVideo (some f)]) =
      { run initState es with videoFile := some f, frames := [] } := by
    rw [run_append]
    rfl
  refine ⟨by rw [h1], ?_, ?_, ?_⟩
  · rw [h1]
    exact hgid
  · intro fr hm
    rw [← hgid]
    exact run_id_bound es initState (fun fr hm => absurd hm (List.not_mem_nil fr)) fr hm
  · have hsplit : es ++ [Event.uploadVideo (some f), Event.tick t.tid env] =
        (es ++ [Event.uploadVideo (some f)]) ++ [Event.tick t.tid env] := by
      simp
    rw [hsplit, run_append, h1]
    show (step { run initState es with videoFile := some f, frames := [] }
        (Event.tick t.tid env)).frames.map Frame.id = _
    simp only [step]
    rw [show ({ run initState es with videoFile := some f, frames := [] } :
        ExtractorState).activeTimers = (run initState es).activeTimers from rfl, hfind]
    simp [tickBody, hp, he, hgid]

/-- Witness for C9: a session that captures two frames from a first video,
then loads a second video; the store is cleared, the counter stays at 2,
and the first frame captured from the new video gets id 2. -/
theorem C9_new_video_keeps_counter_witness :
    ((run initState [Event.uploadVideo (some "a"), Event.clickStart,
          Event.tick 1 envA, Event.tick 1 envB]).activeTimers.find?
        (fun x => x.tid == (Timer.mk 1 EyeSide.OD).tid) = some (Timer.mk 1 EyeSide.OD) ∧
      envA.paused = false ∧ envA.ended = false) ∧
    ((run initState ([Event.uploadVideo (some "a"), Event.clickStart,
          Event.tick 1 envA, Event.tick 1 envB] ++ [Event.uploadVideo (some "b")])).frames = [] ∧
      (run initState ([Event.uploadVideo (some "a"), Event.clickStart,
          Event.tick 1 envA, Event.tick 1 envB] ++ [Event.uploadVideo (some "b")])).globalFrameId =
        countCaptures initState [Event.uploadVideo (some "a"), Event.clickStart,
          Event.tick 1 envA, Event.tick 1 envB] ∧
      (∀ fr ∈ (run initState [Event.uploadVideo (some "a"), Event.clickStart,
          Event.tick 1 envA, Event.tick 1 envB]).frames,
        fr.id < countCaptures initState [Event.uploadVideo (some "a"), Event.clickStart,
          Event.tick 1 envA, Event.tick 1 envB]) ∧
      (run initState ([Event.uploadVideo (some "a"), Event.clickStart,
          Event.tick 1 envA, Event.tick 1 envB] ++
            [Event.uploadVideo (some "b"), Event.tick (Timer.mk 1 EyeSide.OD).tid envA])).frames.map
        Frame.id =
        [countCaptures initState [Event.uploadVideo (some "a"), Event.clickStart,
          Event.tick 1 envA, Event.tick 1 envB]]) :=
  ⟨⟨by decide, by decide, by decide⟩,
    C9_new_video_keeps_counter
      [Event.uploadVideo (some "a"), Event.clickStart, Event.tick 1 envA, Event.tick 1 envB]
      "b" (Timer.mk 1 EyeSide.OD) envA (by decide) (by decide) (by decide)⟩

end RetinaWebview
